import Mathlib

/-!
Verification of the message/chat query and contact-resolution layer of the
whatsapp-mcp repository (`whatsapp-mcp-server/whatsapp.py` and
`whatsapp-mcp-server/main.py`), as a shallow embedding in Lean.

Modelling conventions:
* The two SQLite database files (`messages.db` with tables `chats`/`messages`
  and `whatsapp.db` with table `whatsmeow_contacts`) are modelled as lists of
  rows in table order; `cursor.fetchone()` of an un-ordered `SELECT ... LIMIT 1`
  is `List.find?` over that order.
* Timestamps are modelled as `Nat` instants (the store keeps them as ISO text
  whose comparison order is the instant order).
* SQL `LIKE` with a pattern of the shape `%q%` is modelled as substring
  containment and `LIKE 'q@%'` as prefix matching; `LOWER(x) LIKE LOWER(p)`
  lowers both sides first.  Wildcard characters occurring inside the
  interpolated query string are not given pattern semantics, and engine
  specific collation quirks are not modelled (the spec treats the store as an
  arbitrary embedded relational engine).
* A store value of `none` models `sqlite3.Error` being raised by
  `sqlite3.connect`/`execute`; `some db` models all queries succeeding
  against snapshot `db`.
* Python string truthiness (`if s:`) on optional strings is `optTruthy`.
* Side effects that the claims talk about (opening a store connection,
  executing a query, posting to the bridge) are recorded as an explicit
  event trace returned next to each result.
-/

namespace Whatsapp

/-! ## Data model -/

/-- row of the `messages` table of `messages.db`. -/
structure MessageRow where
  id : String
  chat_jid : String
  sender : String
  content : String
  is_from_me : Bool
  timestamp : Nat
  media_type : Option String
  reply_to_id : Option String
  reply_to_sender : Option String
  reply_to_content : Option String
deriving DecidableEq

/-- row of the `chats` table of `messages.db`. -/
structure ChatRow where
  jid : String
  name : Option String
  last_message_time : Option Nat
deriving DecidableEq

/-- row of the `whatsmeow_contacts` table of `whatsapp.db`. -/
structure ContactRow where
  their_jid : String
  full_name : Option String
  push_name : Option String
  business_name : Option String
deriving DecidableEq

/-- The two read-only stores, as row lists in table order. -/
structure Db where
  messages : List MessageRow
  chats : List ChatRow
  contacts : List ContactRow
deriving DecidableEq

/-- the `Message` dataclass of `whatsapp.py`. -/
structure Message where
  timestamp : Nat
  sender : String
  content : String
  is_from_me : Bool
  chat_jid : String
  id : String
  chat_name : Option String := none
  media_type : Option String := none
  reply_to_id : Option String := none
  reply_to_sender : Option String := none
  reply_to_content : Option String := none
deriving DecidableEq

/-- the `Chat` dataclass of `whatsapp.py`. -/
structure Chat where
  jid : String
  name : Option String
  last_message_time : Option Nat
  last_message : Option String := none
  last_sender : Option String := none
  last_is_from_me : Option Bool := none
deriving DecidableEq

/-- the `MessageContext` dataclass of `whatsapp.py`. -/
structure MessageContext where
  message : Message
  before : List Message
  after : List Message
deriving DecidableEq

/-- I/O events the embedded operations record: opening one of the two store
connections (the event records the attempt, whether or not it raises),
executing a query against a table, and posting an HTTP request to the
bridge. -/
inductive Event where
  | connectContactStore
  | connectMessageStore
  | queryContacts
  | queryChats
  | queryMessages
  | httpPost
deriving DecidableEq

/-- the module-level `_contact_name_cache` dict, keyed by normalized JID;
a stored `none` is the explicit negative marker the code writes on a miss.
Insertion conses, lookup takes the first hit (dict-overwrite semantics). -/
abbrev Cache := List (String × Option String)

def cacheFind (c : Cache) (k : String) : Option (Option String) :=
  (c.find? (fun p => p.1 == k)).map (fun p => p.2)

def cacheInsert (c : Cache) (k : String) (v : Option String) : Cache :=
  (k, v) :: c

/-- Python truthiness of an optional string: `None` and `""` are falsy. -/
def optTruthy : Option String → Bool
  | none => false
  | some s => !(s == "")

/-- Python `a or b` on optional strings. -/
def pyOr (a b : Option String) : Option String := if optTruthy a then a else b

/-- Python `'@' in s` (character-list implementation, so proofs can
evaluate it). -/
def strContainsChar (s : String) (c : Char) : Bool :=
  s.toList.any (fun x => x == c)

/-- Python `p.startswith`-style prefix test used to model `LIKE 'p%'`. -/
def strPrefixOf (p s : String) : Bool := p.toList.isPrefixOf s.toList

/-- Python `s.endswith(p)`. -/
def strEndsWith (s p : String) : Bool := p.toList.isSuffixOf s.toList

/-- SQL `LOWER` / Python `str.lower`. -/
def lowerStr (s : String) : String := String.mk (s.toList.map Char.toLower)

/-- `LIKE '%needle%'`: substring containment. -/
def containsSub (hay needle : String) : Bool :=
  (List.range (hay.toList.length + 1)).any
    (fun i => needle.toList.isPrefixOf (hay.toList.drop i))

/-- the characters before the first at sign: `s.split('@')[0]`. -/
def splitHead : List Char → List Char
  | [] => []
  | c :: cs => if c == '@' then [] else c :: splitHead cs

/-- `jid.split('@')[0] if '@' in jid else jid`. -/
def localPart (jid : String) : String :=
  if strContainsChar jid '@' then String.mk (splitHead jid.toList) else jid

/-- optional-string argument as the SQL layer sees it: a falsy argument
(`None` or `""`) adds no filter. -/
def pyArg (o : Option String) : Option String := if optTruthy o then o else none

/-! ## Sorting (`ORDER BY`), modelled as a stable insertion sort -/

def insertSorted (le : α → α → Bool) (a : α) : List α → List α
  | [] => [a]
  | b :: l => if le a b then a :: b :: l else b :: insertSorted le a l

def sortByLe (le : α → α → Bool) (l : List α) : List α :=
  l.foldr (insertSorted le) []

/-- `LIMIT limit OFFSET page * limit`. -/
def paginate (l : List α) (limit page : Nat) : List α :=
  (l.drop (page * limit)).take limit

/-- `ORDER BY messages.timestamp DESC`. -/
def tsDescLe (x y : Message) : Bool := decide (y.timestamp ≤ x.timestamp)

/-- `ORDER BY messages.timestamp ASC`. -/
def tsAscLe (x y : Message) : Bool := decide (x.timestamp ≤ y.timestamp)

/-- lexicographic order on character lists by code point, the binary text
collation of the store. -/
def charListLe : List Char → List Char → Bool
  | [], _ => true
  | _ :: _, [] => false
  | a :: as, b :: bs =>
    if a.toNat < b.toNat then true
    else if b.toNat < a.toNat then false
    else charListLe as bs

/-- text order of the store (`NULL` smallest, text compared binary). -/
def optStrLe : Option String → Option String → Bool
  | none, _ => true
  | some _, none => false
  | some s, some t => charListLe s.toList t.toList

/-- `Option Nat` with `NULL` smallest. -/
def optNatLe : Option Nat → Option Nat → Bool
  | none, _ => true
  | some _, none => false
  | some a, some b => decide (a ≤ b)

/-! ## Name Resolver
(`get_contact_name_from_whatsmeow`, `get_sender_name` of `whatsapp.py`) -/

/-- `full_name or push_name or business_name`: first non-empty of the three. -/
def contactRowName (c : ContactRow) : Option String :=
  pyOr c.full_name (pyOr c.push_name c.business_name)

/-- JID normalization at the top of `get_contact_name_from_whatsmeow`. -/
def normalizeJid (jid : String) : String :=
  if strContainsChar jid '@' then jid else jid ++ "@s.whatsapp.net"

/-- the tail of `get_contact_name_from_whatsmeow` after the exact-JID query
produced no (non-empty) name: the `if '@' in jid:` retry with a
`their_jid LIKE 'phone@%'` prefix query, then the negative-cache write. -/
def contactPrefixStep (db : Db) (cache : Cache) (jid normalized_jid : String)
    (ev : List Event) : Option String × Cache × List Event :=
  if strContainsChar jid '@' then
    let pref := localPart jid ++ "@"
    let ev2 := ev ++ [Event.queryContacts]
    match db.contacts.find? (fun c => strPrefixOf pref c.their_jid) with
    | some r =>
      if optTruthy (contactRowName r) then
        (contactRowName r, cacheInsert cache normalized_jid (contactRowName r), ev2)
      else (none, cacheInsert cache normalized_jid none, ev2)
    | none => (none, cacheInsert cache normalized_jid none, ev2)
  else (none, cacheInsert cache normalized_jid none, ev)

/-- `get_contact_name_from_whatsmeow(jid)`: cache check on the normalized JID,
exact `their_jid` query, prefix retry, negative caching; `sqlite3.Error`
(`st = none`) degrades to `None` without touching the cache. -/
def get_contact_name_from_whatsmeow (st : Option Db) (cache : Cache) (jid : String) :
    Option String × Cache × List Event :=
  let normalized_jid := normalizeJid jid
  match cacheFind cache normalized_jid with
  | some v => (v, cache, [])
  | none =>
    match st with
    | none => (none, cache, [Event.connectContactStore])
    | some db =>
      let ev1 := [Event.connectContactStore, Event.queryContacts]
      match db.contacts.find? (fun c => c.their_jid == normalized_jid) with
      | some row =>
        if optTruthy (contactRowName row) then
          (contactRowName row, cacheInsert cache normalized_jid (contactRowName row), ev1)
        else contactPrefixStep db cache jid normalized_jid ev1
      | none => contactPrefixStep db cache jid normalized_jid ev1

/-- the chats-table fallback inside `get_sender_name`: exact `jid = ?` lookup,
and only when that returns no row at all, the `jid LIKE '%phone%'` substring
lookup; a found row with an empty/NULL name falls through to the local part. -/
def chatsFallback (db : Db) (sender_jid : String) : String × List Event :=
  match db.chats.find? (fun c => c.jid == sender_jid) with
  | some row =>
    (if optTruthy row.name then row.name.getD "" else localPart sender_jid,
     [Event.connectMessageStore, Event.queryChats])
  | none =>
    match db.chats.find? (fun c => containsSub c.jid (localPart sender_jid)) with
    | some row =>
      (if optTruthy row.name then row.name.getD "" else localPart sender_jid,
       [Event.connectMessageStore, Event.queryChats, Event.queryChats])
    | none =>
      (localPart sender_jid,
       [Event.connectMessageStore, Event.queryChats, Event.queryChats])

/-- `get_sender_name(sender_jid)`: whatsmeow contact name first, then the
chats-table fallback; on `sqlite3.Error` in the chats step returns the raw
JID. -/
def get_sender_name (st : Option Db) (cache : Cache) (sender_jid : String) :
    String × Cache × List Event :=
  if optTruthy (get_contact_name_from_whatsmeow st cache sender_jid).1 then
    ((get_contact_name_from_whatsmeow st cache sender_jid).1.getD "",
     (get_contact_name_from_whatsmeow st cache sender_jid).2.1,
     (get_contact_name_from_whatsmeow st cache sender_jid).2.2)
  else
    match st with
    | none =>
      (sender_jid,
       (get_contact_name_from_whatsmeow st cache sender_jid).2.1,
       (get_contact_name_from_whatsmeow st cache sender_jid).2.2
         ++ [Event.connectMessageStore])
    | some db =>
      ((chatsFallback db sender_jid).1,
       (get_contact_name_from_whatsmeow st cache sender_jid).2.1,
       (get_contact_name_from_whatsmeow st cache sender_jid).2.2
         ++ (chatsFallback db sender_jid).2)

/-- The resolution cascade exactly as claim C1 words it, for comparison with
the source function: contact source first non-empty of the three name columns
by exact normalized-JID match, then (unconditionally) by local-part-prefix
match; then the chats-table name by exact JID match, then by substring match
on the local part; on total miss the local part before the at sign, or the
raw JID when it has none. -/
def claimC1Resolve (db : Db) (jid : String) : String :=
  let normalized := normalizeJid jid
  let lp := localPart jid
  let exactContact := (db.contacts.find? (fun c => c.their_jid == normalized)).bind
    (fun r => if optTruthy (contactRowName r) then contactRowName r else none)
  let prefContact := (db.contacts.find? (fun c => strPrefixOf (lp ++ "@") c.their_jid)).bind
    (fun r => if optTruthy (contactRowName r) then contactRowName r else none)
  let exactChat := (db.chats.find? (fun c => c.jid == jid)).bind
    (fun r => if optTruthy r.name then r.name else none)
  let subChat := (db.chats.find? (fun c => containsSub c.jid lp)).bind
    (fun r => if optTruthy r.name then r.name else none)
  match exactContact with
  | some n => n
  | none =>
    match prefContact with
    | some n => n
    | none =>
      match exactChat with
      | some n => n
      | none =>
        match subChat with
        | some n => n
        | none => lp

/-- the contact-source part of the cascade the code implements, cache-free:
first non-empty name of the exact normalized-JID row; the local-part-prefix
retry runs only when the given JID itself contains an at sign. -/
def contactNameSpec (db : Db) (jid : String) : Option String :=
  match (db.contacts.find? (fun c => c.their_jid == normalizeJid jid)).bind
      (fun r => if optTruthy (contactRowName r) then contactRowName r else none) with
  | some n => some n
  | none =>
    if strContainsChar jid '@' then
      (db.contacts.find? (fun c => strPrefixOf (localPart jid ++ "@") c.their_jid)).bind
        (fun r => if optTruthy (contactRowName r) then contactRowName r else none)
    else none

/-- The full cascade the code implements (the amended claim C1), cache-free:
after the contact step, the chats-table name of the exact-JID row when such a
row exists (falling through to the local part when its name is empty, without
trying the substring query), otherwise the name of the first row whose JID
contains the local part; final fallback is the local part before the at sign
or the raw JID when it has none. -/
def resolveAmended (db : Db) (jid : String) : String :=
  match contactNameSpec db jid with
  | some n => n
  | none =>
    match db.chats.find? (fun c => c.jid == jid) with
    | some row => if optTruthy row.name then row.name.getD "" else localPart jid
    | none =>
      match db.chats.find? (fun c => containsSub c.jid (localPart jid)) with
      | some row => if optTruthy row.name then row.name.getD "" else localPart jid
      | none => localPart jid

/-- counterexample database for C1: one contact reachable only through the
local-part-prefix query, no chats. -/
def dbC1 : Db := ⟨[], [], [⟨"123@c.us", some "Ann", none, none⟩]⟩

/-- counterexample database for C8: no contact row, one chat row with a
name, so that resolution succeeds through the chats table. -/
def dbC8 : Db := ⟨[], [⟨"77@s.whatsapp.net", some "Bob", none⟩], []⟩

/-! ## Message Store Reader -/

/-- one output row of `JOIN chats ON messages.chat_jid = chats.jid`, shaped
as the `Message` dataclass the queries build (the selected `chats.jid` is the
dataclass `chat_jid`, equal to `messages.chat_jid` by the join condition). -/
def joinRow (m : MessageRow) (c : ChatRow) : Message :=
  { timestamp := m.timestamp
    sender := m.sender
    content := m.content
    is_from_me := m.is_from_me
    chat_jid := c.jid
    id := m.id
    chat_name := c.name
    media_type := m.media_type
    reply_to_id := m.reply_to_id
    reply_to_sender := m.reply_to_sender
    reply_to_content := m.reply_to_content }

/-- `messages JOIN chats ON messages.chat_jid = chats.jid`. -/
def messagesJoin (db : Db) : List Message :=
  db.messages.flatMap
    (fun m => (db.chats.filter (fun c => c.jid == m.chat_jid)).map (joinRow m))

/-- the conjunctive WHERE clause of `list_messages`: strict timestamp bounds,
exact sender and chat, case-insensitive substring on content. -/
def optFilter {β : Type} (o : Option β) (p : β → Bool) : Bool :=
  match o with
  | none => true
  | some x => p x

def lmFilter (after before : Option Nat) (sender chat q : Option String)
    (m : Message) : Bool :=
  optFilter after (fun a => decide (a < m.timestamp))
    && optFilter before (fun b => decide (m.timestamp < b))
    && optFilter sender (fun s => m.sender == s)
    && optFilter chat (fun c => m.chat_jid == c)
    && optFilter q (fun qs => containsSub (lowerStr m.content) (lowerStr qs))

/-- the `result` list of `list_messages`: WHERE, `ORDER BY timestamp DESC`,
`LIMIT limit OFFSET page * limit`. -/
def list_messages_rows (db : Db) (after before : Option Nat)
    (sender chat q : Option String) (limit page : Nat) : List Message :=
  paginate
    (sortByLe tsDescLe ((messagesJoin db).filter (lmFilter after before sender chat q)))
    limit page

/-- Modelled from the spec: `datetime.fromisoformat` of the Python standard
library (external to this repository); accepts the canonical
`YYYY-MM-DDTHH:MM:SS` shape, mapping it to its digit string read as a number
(a valid instant encoding since the order of such strings is their digit
order), and yields `none` (a `ValueError`) on any other shape. -/
def fromisoformat (s : String) : Option Nat :=
  let cs := s.toList
  let get := fun (i : Nat) => cs.getD i ' '
  let digitIdx : List Nat := [0, 1, 2, 3, 5, 6, 8, 9, 11, 12, 14, 15, 17, 18]
  if cs.length == 19 && get 4 == '-' && get 7 == '-' && get 10 == 'T'
      && get 13 == ':' && get 16 == ':'
      && digitIdx.all (fun i => 48 ≤ (get i).toNat && (get i).toNat ≤ 57) then
    some (digitIdx.foldl (fun a i => a * 10 + ((get i).toNat - 48)) 0)
  else none

/-- `get_message_context(message_id, before, after)`: fetch the target via
the join (a `ValueError` when absent); then up to `before` strictly earlier
messages of the same chat ordered timestamp-descending, and up to `after`
strictly later ones ordered ascending, both returned in fetch order.  A
`sqlite3.Error` (`st = none`) is logged and re-raised. -/
def get_message_context (st : Option Db) (message_id : String)
    (before after : Nat) : Except String MessageContext × List Event :=
  match st with
  | none => (Except.error "Database error", [Event.connectMessageStore])
  | some db =>
    let ev := [Event.connectMessageStore, Event.queryMessages]
    match (messagesJoin db).find? (fun m => m.id == message_id) with
    | none => (Except.error ("Message with ID " ++ message_id ++ " not found"), ev)
    | some tgt =>
      let beforeMsgs := (sortByLe tsDescLe ((messagesJoin db).filter
          (fun m => m.chat_jid == tgt.chat_jid
            && decide (m.timestamp < tgt.timestamp)))).take before
      let afterMsgs := (sortByLe tsAscLe ((messagesJoin db).filter
          (fun m => m.chat_jid == tgt.chat_jid
            && decide (tgt.timestamp < m.timestamp)))).take after
      (Except.ok ⟨tgt, beforeMsgs, afterMsgs⟩,
       ev ++ [Event.queryMessages, Event.queryMessages])

/-- the in-place expansion of one match inside `list_messages`:
`context.before + [context.message] + context.after` (empty only when the
context lookup raised, which under a well-formed store never happens for a
matched message). -/
def contextTriple (st : Option Db) (cb ca : Nat) (m : Message) : List Message :=
  match (get_message_context st m.id cb ca).1 with
  | Except.ok ctx => ctx.before ++ ctx.message :: ctx.after
  | Except.error _ => []

/-- the `include_context` loop of `list_messages`: expands each matched
message via `get_message_context`, extending the output list in match order;
a raised error from the lookup propagates. -/
def add_context (st : Option Db) (cb ca : Nat) :
    List Message → Except String (List Message) × List Event
  | [] => (Except.ok [], [])
  | m :: rest =>
    match get_message_context st m.id cb ca with
    | (Except.error e, ev) => (Except.error e, ev)
    | (Except.ok ctx, ev) =>
      match add_context st cb ca rest with
      | (Except.error e, ev2) => (Except.error e, ev ++ ev2)
      | (Except.ok l, ev2) =>
        (Except.ok (ctx.before ++ ctx.message :: ctx.after ++ l), ev ++ ev2)

/-! ## Response Formatter -/

/-- rendering of `{timestamp:%Y-%m-%d %H:%M:%S}`; the concrete text of an
instant is opaque to every claim, so the model prints the instant value. -/
def format_timestamp (t : Nat) : String := toString t

/-- truncation of quoted reply content to 50 characters plus an ellipsis. -/
def truncate50 (s : String) : String :=
  if decide (50 < s.toList.length) then String.mk (s.toList.take 50) ++ "..." else s

/-- `format_message(message, show_chat_info)`: one output line; resolves the
reply-quote sender and then the sender through `get_sender_name` (skipped for
own messages), threading the name cache and recording the store events of
those lookups. -/
def format_message (st : Option Db) (cache : Cache) (m : Message)
    (show_chat_info : Bool) : String × Cache × List Event :=
  let base :=
    if show_chat_info && optTruthy m.chat_name then
      "[" ++ format_timestamp m.timestamp ++ "] Chat: " ++ m.chat_name.getD "" ++ " "
    else "[" ++ format_timestamp m.timestamp ++ "] "
  let content_prefix :=
    if optTruthy m.media_type then
      "[" ++ m.media_type.getD "" ++ " - Message ID: " ++ m.id
        ++ " - Chat JID: " ++ m.chat_jid ++ "] "
    else ""
  if optTruthy m.reply_to_id then
    let rs :=
      if optTruthy m.reply_to_sender then
        get_sender_name st cache (m.reply_to_sender.getD "")
      else ("Unknown", cache, [])
    let reply_content :=
      if optTruthy m.reply_to_content then m.reply_to_content.getD "" else "[message]"
    let reply_info := "[Reply to " ++ rs.1 ++ ": \"" ++ truncate50 reply_content ++ "\"] "
    let sn := if m.is_from_me then ("Me", rs.2.1, ([] : List Event))
      else get_sender_name st rs.2.1 m.sender
    (base ++ "From: " ++ sn.1 ++ ": " ++ reply_info ++ content_prefix ++ m.content ++ "\n",
     sn.2.1, rs.2.2 ++ sn.2.2)
  else
    let sn := if m.is_from_me then ("Me", cache, ([] : List Event))
      else get_sender_name st cache m.sender
    (base ++ "From: " ++ sn.1 ++ ": " ++ content_prefix ++ m.content ++ "\n",
     sn.2.1, sn.2.2)

/-- the accumulation loop of `format_messages_list`. -/
def format_messages_aux (st : Option Db) (cache : Cache) :
    List Message → Bool → String × Cache × List Event
  | [], _ => ("", cache, [])
  | m :: rest, sci =>
    let r1 := format_message st cache m sci
    let r2 := format_messages_aux st r1.2.1 rest sci
    (r1.1 ++ r2.1, r2.2.1, r1.2.2 ++ r2.2.2)

/-- `format_messages_list(messages, show_chat_info)`: the literal sentinel
for an empty input, otherwise the concatenation of per-message lines. -/
def format_messages_list (st : Option Db) (cache : Cache)
    (msgs : List Message) (show_chat_info : Bool) : String × Cache × List Event :=
  match msgs with
  | [] => ("No messages to display.", cache, [])
  | _ => format_messages_aux st cache msgs show_chat_info

/-- the two result shapes `list_messages` can produce: the formatted string
of the success paths, and the raw empty `[]` list of the `sqlite3.Error`
path. -/
inductive LMResult where
  | formatted (s : String)
  | emptyList
deriving DecidableEq

/-- parsing of one optional bound inside `list_messages`: `if after:` then
`datetime.fromisoformat(after)`, raising `ValueError` on a bad shape; a falsy
argument adds no bound. -/
def parseBound (boundName : String) (o : Option String) : Except String (Option Nat) :=
  match o with
  | none => Except.ok none
  | some s =>
    if s == "" then Except.ok none
    else
      match fromisoformat s with
      | some t => Except.ok (some t)
      | none => Except.error ("Invalid date format for " ++ boundName ++ ": " ++ s
          ++ ". Please use ISO-8601 format.")

/-- `list_messages(...)`: opens the store connection first, then parses the
bounds (a date `ValueError` propagates), runs the filtered, sorted and
paginated select, optionally expands each match into its context window, and
formats the resulting list; `sqlite3.Error` at the store degrades to the
empty list. -/
def list_messages (st : Option Db) (cache : Cache)
    (after before sender_phone_number chat_jid query : Option String)
    (limit page : Nat) (include_context : Bool) (context_before context_after : Nat) :
    Except String LMResult × Cache × List Event :=
  match st with
  | none => (Except.ok LMResult.emptyList, cache, [Event.connectMessageStore])
  | some db =>
    match parseBound "after" after with
    | Except.error e => (Except.error e, cache, [Event.connectMessageStore])
    | Except.ok aOpt =>
      match parseBound "before" before with
      | Except.error e => (Except.error e, cache, [Event.connectMessageStore])
      | Except.ok bOpt =>
        let rows := list_messages_rows db aOpt bOpt (pyArg sender_phone_number)
          (pyArg chat_jid) (pyArg query) limit page
        let ev1 := [Event.connectMessageStore, Event.queryMessages]
        if include_context && !rows.isEmpty then
          match add_context (some db) context_before context_after rows with
          | (Except.error e, ev2) => (Except.error e, cache, ev1 ++ ev2)
          | (Except.ok full, ev2) =>
            let f := format_messages_list (some db) cache full true
            (Except.ok (LMResult.formatted f.1), f.2.1, ev1 ++ ev2 ++ f.2.2)
        else
          let f := format_messages_list (some db) cache rows true
          (Except.ok (LMResult.formatted f.1), f.2.1, ev1 ++ f.2.2)

/-- well-formed store: message ids unique, chat JIDs unique, every message's
chat exists. -/
def Db.Wf (db : Db) : Prop :=
  (db.messages.map (fun m => m.id)).Nodup
    ∧ (db.chats.map (fun c => c.jid)).Nodup
    ∧ ∀ m ∈ db.messages, ∃ c ∈ db.chats, c.jid = m.chat_jid

instance (db : Db) : Decidable db.Wf := by
  unfold Db.Wf
  infer_instance

/-! ## Chat Store Reader -/

/-- one row of the `list_chats` select: the chat columns plus the LEFT JOIN
columns from the message whose timestamp equals `last_message_time`. -/
structure JoinedChat where
  jid : String
  name : Option String
  last_message_time : Option Nat
  last_message : Option String
  last_sender : Option String
  last_is_from_me : Option Bool
deriving DecidableEq

/-- `chats LEFT JOIN messages ON chats.jid = messages.chat_jid AND
chats.last_message_time = messages.timestamp`: every matching message yields
a row; no match (including a NULL `last_message_time`, which never compares
equal) yields one row with NULL message columns. -/
def chatLeftJoin (db : Db) : List JoinedChat :=
  db.chats.flatMap (fun c =>
    match c.last_message_time with
    | none => [⟨c.jid, c.name, c.last_message_time, none, none, none⟩]
    | some t =>
      match db.messages.filter (fun m => m.chat_jid == c.jid && m.timestamp == t) with
      | [] => [⟨c.jid, c.name, c.last_message_time, none, none, none⟩]
      | ms => ms.map (fun m =>
          ⟨c.jid, c.name, c.last_message_time,
           some m.content, some m.sender, some m.is_from_me⟩))

/-- `LOWER(chats.name) LIKE LOWER('%q%')`; a NULL name never matches. -/
def chatNameMatches (chatName : Option String) (q : String) : Bool :=
  match chatName with
  | some n => containsSub (lowerStr n) (lowerStr q)
  | none => false

/-- the WHERE clause of `list_chats`: name match OR `chats.jid LIKE '%q%'`. -/
def chatQueryFilter (q : String) (c : JoinedChat) : Bool :=
  chatNameMatches c.name q || containsSub c.jid q

/-- `ORDER BY chats.last_message_time DESC`. -/
def lmtDescLe (x y : JoinedChat) : Bool := optNatLe y.last_message_time x.last_message_time

/-- `ORDER BY chats.name` (ascending on the stored name). -/
def nameAscLe (x y : JoinedChat) : Bool := optStrLe x.name y.name

/-- rows fetched by `list_chats`: optional query filter, sort by the
requested key (anything other than "last_active" sorts by name), pagination
at offset page * limit. -/
def list_chats_rows (db : Db) (query : Option String) (limit page : Nat)
    (sort_by : String) : List JoinedChat :=
  let base := chatLeftJoin db
  let filtered :=
    match pyArg query with
    | some q => base.filter (chatQueryFilter q)
    | none => base
  let le := if sort_by == "last_active" then lmtDescLe else nameAscLe
  paginate (sortByLe le filtered) limit page

/-- the Python loop body that turns a fetched row into a `Chat`: for
non-group JIDs the whatsmeow contact name overrides the stored name, and a
still-absent (or empty) name falls back to the JID local part. -/
def display_chat (st : Option Db) (cache : Cache) (r : JoinedChat) :
    Chat × Cache × List Event :=
  if strEndsWith r.jid "@g.us" then
    (⟨r.jid, r.name, r.last_message_time, r.last_message, r.last_sender, r.last_is_from_me⟩,
     cache, [])
  else
    let cres := get_contact_name_from_whatsmeow st cache r.jid
    let nm :=
      if optTruthy cres.1 then cres.1
      else if optTruthy r.name then r.name
      else some (localPart r.jid)
    (⟨r.jid, nm, r.last_message_time, r.last_message, r.last_sender, r.last_is_from_me⟩,
     cres.2.1, cres.2.2)

/-- the result-building loop of `list_chats`, threading the name cache. -/
def display_chats (st : Option Db) (cache : Cache) :
    List JoinedChat → List Chat × Cache × List Event
  | [] => ([], cache, [])
  | r :: rest =>
    let c1 := display_chat st cache r
    let c2 := display_chats st c1.2.1 rest
    (c1.1 :: c2.1, c2.2.1, c1.2.2 ++ c2.2.2)

/-- `list_chats(query, limit, page, include_last_message, sort_by)`.  When
`include_last_message` is false the built SELECT still references the
`messages` columns but omits the JOIN, so the execute raises
`sqlite3.OperationalError` (a `sqlite3.Error`) and the function degrades to
the empty list; the same happens when the store fails. -/
def list_chats (st : Option Db) (cache : Cache) (query : Option String)
    (limit page : Nat) (include_last_message : Bool) (sort_by : String) :
    List Chat × Cache × List Event :=
  match st with
  | none => ([], cache, [Event.connectMessageStore])
  | some db =>
    if include_last_message then
      let rows := list_chats_rows db query limit page sort_by
      let d := display_chats (some db) cache rows
      (d.1, d.2.1, [Event.connectMessageStore, Event.queryChats] ++ d.2.2)
    else ([], cache, [Event.connectMessageStore, Event.queryChats])

/-- `get_chat(chat_jid, include_last_message)`: one row by exact JID with the
same display-name derivation; a store failure (and the same missing-JOIN
defect when `include_last_message` is false) degrades to `None`. -/
def get_chat (st : Option Db) (cache : Cache) (chat_jid : String)
    (include_last_message : Bool) : Option Chat × Cache × List Event :=
  match st with
  | none => (none, cache, [Event.connectMessageStore])
  | some db =>
    if include_last_message then
      match (chatLeftJoin db).find? (fun r => r.jid == chat_jid) with
      | none => (none, cache, [Event.connectMessageStore, Event.queryChats])
      | some r =>
        let d := display_chat (some db) cache r
        (some d.1, d.2.1, [Event.connectMessageStore, Event.queryChats] ++ d.2.2)
    else (none, cache, [Event.connectMessageStore, Event.queryChats])

/-- `get_last_interaction(jid)`: the most recent message whose sender or chat
is the JID, formatted; no match or a store failure degrades to `None`. -/
def get_last_interaction (st : Option Db) (cache : Cache) (jid : String) :
    Option String × Cache × List Event :=
  match st with
  | none => (none, cache, [Event.connectMessageStore])
  | some db =>
    let ev := [Event.connectMessageStore, Event.queryMessages]
    match (sortByLe tsDescLe ((messagesJoin db).filter
        (fun m => m.sender == jid || m.chat_jid == jid))).head? with
    | none => (none, cache, ev)
    | some m =>
      let f := format_message (some db) cache m true
      (some f.1, f.2.1, ev ++ f.2.2)

/-! ## Bridge transport (send / watch operations) -/

/-- the fields `result.get("success")` / `result.get("message")` read from a
parsed JSON body. -/
structure JsonShape where
  success : Option Bool
  message : Option String
deriving DecidableEq

/-- an HTTP response from the bridge: status code, raw text, and the parsed
JSON body (`none` models `json.JSONDecodeError`). -/
structure HttpResponse where
  status : Nat
  text : String
  json : Option JsonShape
deriving DecidableEq

/-- outcome of one `requests.post` toward the bridge: a connection-level
`requests.RequestException`, or a delivered response. -/
inductive BridgeResult where
  | exn (msg : String)
  | conn (r : HttpResponse)
deriving DecidableEq

/-- `send_message(recipient, message)`: an empty recipient is rejected before
the post; a 200 response is read from its JSON body; non-200, unreachable and
unparseable outcomes are converted to `(False, descriptive text)`. -/
def send_message (bridge : BridgeResult) (recipient message_text : String) :
    (Bool × String) × List Event :=
  if recipient == "" then ((false, "Recipient must be provided"), [])
  else
    match bridge with
    | BridgeResult.exn m => ((false, "Request error: " ++ m), [Event.httpPost])
    | BridgeResult.conn r =>
      if r.status == 200 then
        match r.json with
        | some j =>
          ((j.success.getD false, j.message.getD "Unknown response"), [Event.httpPost])
        | none => ((false, "Error parsing response: " ++ r.text), [Event.httpPost])
      else ((false, "Error: HTTP " ++ toString r.status ++ " - " ++ r.text), [Event.httpPost])

/-- `send_reply(recipient, message, reply_to_id, reply_to_jid)`: an empty
recipient or an empty reply_to_id is rejected before the post, then exactly
as `send_message`. -/
def send_reply (bridge : BridgeResult)
    (recipient message_text reply_to_id reply_to_jid : String) :
    (Bool × String) × List Event :=
  if recipient == "" then ((false, "Recipient must be provided"), [])
  else if reply_to_id == "" then ((false, "reply_to_id must be provided"), [])
  else
    match bridge with
    | BridgeResult.exn m => ((false, "Request error: " ++ m), [Event.httpPost])
    | BridgeResult.conn r =>
      if r.status == 200 then
        match r.json with
        | some j =>
          ((j.success.getD false, j.message.getD "Unknown response"), [Event.httpPost])
        | none => ((false, "Error parsing response: " ++ r.text), [Event.httpPost])
      else ((false, "Error: HTTP " ++ toString r.status ++ " - " ++ r.text), [Event.httpPost])

/-- `watch_channel(jid, name)` of `whatsapp.py`: posts and reads the JSON
body (no status-code check). -/
def watch_channel (bridge : BridgeResult) (jid : String)
    (channel_name : Option String) : (Bool × String) × List Event :=
  match bridge with
  | BridgeResult.exn m => ((false, "Request error: " ++ m), [Event.httpPost])
  | BridgeResult.conn r =>
    match r.json with
    | some j => ((j.success.getD false, j.message.getD "Unknown error"), [Event.httpPost])
    | none => ((false, "Error parsing response"), [Event.httpPost])

/-- the `watch_channel` tool wrapper of `main.py`: an empty JID is rejected
with `success=False` before `whatsapp.watch_channel` is invoked. -/
def mcp_watch_channel (bridge : BridgeResult) (jid : String)
    (channel_name : Option String) : (Bool × String) × List Event :=
  if jid == "" then ((false, "JID must be provided"), [])
  else watch_channel bridge jid channel_name

/-- counterexample database for C5: chat "1@..." has stored name "Alice" but
contact name "Zed"; chat "2@..." has stored name "Bob" and no contact row. -/
def chatRow1 : ChatRow := ⟨"1@s.whatsapp.net", some "Alice", none⟩

def chatRow2 : ChatRow := ⟨"2@s.whatsapp.net", some "Bob", none⟩

def dbC5 : Db :=
  ⟨[], [chatRow1, chatRow2], [⟨"1@s.whatsapp.net", some "Zed", none, none⟩]⟩

/-- the joined row of `chatRow2`, used by the C5 witness. -/
def jcBob : JoinedChat := ⟨"2@s.whatsapp.net", some "Bob", none, none, none, none⟩

/-- three messages of one chat, at instants 1 < 2 < 3, for counterexamples
and witnesses. -/
def mA : MessageRow := ⟨"m1", "g@s.whatsapp.net", "s1", "alpha", false, 1, none, none, none, none⟩

def mB : MessageRow := ⟨"m2", "g@s.whatsapp.net", "s1", "beta", false, 2, none, none, none, none⟩

def mC : MessageRow := ⟨"m3", "g@s.whatsapp.net", "s2", "gamma", false, 3, none, none, none, none⟩

def chatG : ChatRow := ⟨"g@s.whatsapp.net", some "G", some 3⟩

def dbMsgs : Db := ⟨[mA, mB, mC], [chatG], []⟩

/-! ## Theorems -/

theorem sortByLe_cons (le : α → α → Bool) (a : α) (l : List α) :
    sortByLe le (a :: l) = insertSorted le a (sortByLe le l) := rfl

theorem mem_insertSorted (le : α → α → Bool) (a x : α) (l : List α) :
    x ∈ insertSorted le a l ↔ x = a ∨ x ∈ l := by
  induction l with
  | nil => simp [insertSorted]
  | cons b l ih =>
    by_cases hab : le a b = true
    · simp only [insertSorted, if_pos hab, List.mem_cons]
    · simp only [insertSorted, if_neg hab, List.mem_cons, ih]
      tauto

theorem mem_sortByLe (le : α → α → Bool) (x : α) (l : List α) :
    x ∈ sortByLe le l ↔ x ∈ l := by
  induction l with
  | nil => simp [sortByLe]
  | cons a l ih =>
    rw [sortByLe_cons, mem_insertSorted, List.mem_cons, ih]

theorem pairwise_insertSorted (le : α → α → Bool)
    (htot : ∀ a b, le a b = true ∨ le b a = true)
    (htrans : ∀ a b c, le a b = true → le b c = true → le a c = true)
    (a : α) (l : List α) (h : l.Pairwise (fun x y => le x y = true)) :
    (insertSorted le a l).Pairwise (fun x y => le x y = true) := by
  induction l with
  | nil => simp [insertSorted]
  | cons b l ih =>
    rcases List.pairwise_cons.mp h with ⟨hb, hl⟩
    by_cases hab : le a b = true
    · simp only [insertSorted, if_pos hab]
      refine List.pairwise_cons.mpr ⟨?_, h⟩
      intro x hx
      rcases List.mem_cons.mp hx with rfl | hx
      · exact hab
      · exact htrans a b x hab (hb x hx)
    · simp only [insertSorted, if_neg hab]
      refine List.pairwise_cons.mpr ⟨?_, ih hl⟩
      intro x hx
      rcases (mem_insertSorted le a x l).mp hx with rfl | hx
      · rcases htot x b with h1 | h1
        · exact absurd h1 hab
        · exact h1
      · exact hb x hx

theorem pairwise_sortByLe (le : α → α → Bool)
    (htot : ∀ a b, le a b = true ∨ le b a = true)
    (htrans : ∀ a b c, le a b = true → le b c = true → le a c = true)
    (l : List α) :
    (sortByLe le l).Pairwise (fun x y => le x y = true) := by
  induction l with
  | nil => simp [sortByLe]
  | cons a l ih =>
    rw [sortByLe_cons]
    exact pairwise_insertSorted le htot htrans a _ ih

theorem paginate_shift (l : List α) (limit page : Nat) :
    paginate l limit page = (paginate l (page * limit + limit) 0).drop (page * limit) := by
  simp [paginate, List.drop_take]

theorem paginate_length_le (l : List α) (limit page : Nat) :
    (paginate l limit page).length ≤ limit := by
  simp [paginate]

theorem mem_paginate (l : List α) (limit page : Nat) (x : α)
    (h : x ∈ paginate l limit page) : x ∈ l :=
  List.mem_of_mem_drop (List.mem_of_mem_take h)

theorem pairwise_paginate {R : α → α → Prop} (l : List α) (limit page : Nat)
    (h : l.Pairwise R) : (paginate l limit page).Pairwise R :=
  List.Pairwise.sublist ((List.take_sublist _ _).trans (List.drop_sublist _ _)) h

theorem charListLe_total : ∀ (a b : List Char),
    charListLe a b = true ∨ charListLe b a = true
  | [], _ => Or.inl rfl
  | _ :: _, [] => Or.inr rfl
  | a :: as, b :: bs => by
    by_cases h1 : a.toNat < b.toNat
    · exact Or.inl (by simp [charListLe, h1])
    · by_cases h2 : b.toNat < a.toNat
      · exact Or.inr (by simp [charListLe, h2])
      · rcases charListLe_total as bs with h | h
        · exact Or.inl (by simp [charListLe, h1, h2, h])
        · exact Or.inr (by simp [charListLe, h2, h1, h])

theorem charListLe_trans : ∀ (a b c : List Char),
    charListLe a b = true → charListLe b c = true → charListLe a c = true
  | [], _, _, _, _ => rfl
  | _ :: _, [], _, hab, _ => by simp [charListLe] at hab
  | _ :: _, _ :: _, [], _, hbc => by simp [charListLe] at hbc
  | a :: as, b :: bs, c :: cs, hab, hbc => by
    simp only [charListLe] at hab hbc ⊢
    by_cases h1 : a.toNat < b.toNat
    · by_cases h2 : b.toNat < c.toNat
      · simp [Nat.lt_trans h1 h2]
      · by_cases h3 : c.toNat < b.toNat
        · rw [if_neg h2, if_pos h3] at hbc
          exact absurd hbc (by simp)
        · have hbceq : b.toNat = c.toNat := by omega
          have hac : a.toNat < c.toNat := by omega
          simp [hac]
    · by_cases h4 : b.toNat < a.toNat
      · rw [if_neg h1, if_pos h4] at hab
        exact absurd hab (by simp)
      · have habeq : a.toNat = b.toNat := by omega
        rw [if_neg h1, if_neg h4] at hab
        by_cases h2 : b.toNat < c.toNat
        · have hac : a.toNat < c.toNat := by omega
          simp [hac]
        · by_cases h3 : c.toNat < b.toNat
          · rw [if_neg h2, if_pos h3] at hbc
            exact absurd hbc (by simp)
          · rw [if_neg h2, if_neg h3] at hbc
            have hac1 : ¬ a.toNat < c.toNat := by omega
            have hac2 : ¬ c.toNat < a.toNat := by omega
            rw [if_neg hac1, if_neg hac2]
            exact charListLe_trans as bs cs hab hbc

theorem optStrLe_total (a b : Option String) :
    optStrLe a b = true ∨ optStrLe b a = true := by
  cases a with
  | none => exact Or.inl rfl
  | some s =>
    cases b with
    | none => exact Or.inr rfl
    | some t => exact charListLe_total s.toList t.toList

theorem optStrLe_trans (a b c : Option String)
    (h1 : optStrLe a b = true) (h2 : optStrLe b c = true) :
    optStrLe a c = true := by
  cases a with
  | none => rfl
  | some s =>
    cases b with
    | none => simp [optStrLe] at h1
    | some t =>
      cases c with
      | none => simp [optStrLe] at h2
      | some u => exact charListLe_trans s.toList t.toList u.toList h1 h2

theorem optNatLe_total (a b : Option Nat) :
    optNatLe a b = true ∨ optNatLe b a = true := by
  cases a with
  | none => exact Or.inl rfl
  | some s =>
    cases b with
    | none => exact Or.inr rfl
    | some t =>
      simp only [optNatLe, decide_eq_true_eq]
      exact Nat.le_total s t

theorem optNatLe_trans (a b c : Option Nat)
    (h1 : optNatLe a b = true) (h2 : optNatLe b c = true) :
    optNatLe a c = true := by
  cases a with
  | none => rfl
  | some s =>
    cases b with
    | none => simp [optNatLe] at h1
    | some t =>
      cases c with
      | none => simp [optNatLe] at h2
      | some u =>
        simp only [optNatLe, decide_eq_true_eq] at h1 h2 ⊢
        exact Nat.le_trans h1 h2

theorem tsDescLe_total (a b : Message) : tsDescLe a b = true ∨ tsDescLe b a = true := by
  simp only [tsDescLe, decide_eq_true_eq]
  exact Nat.le_total _ _

theorem tsDescLe_trans (a b c : Message) (h1 : tsDescLe a b = true)
    (h2 : tsDescLe b c = true) : tsDescLe a c = true := by
  simp only [tsDescLe, decide_eq_true_eq] at h1 h2 ⊢
  exact Nat.le_trans h2 h1

theorem tsAscLe_total (a b : Message) : tsAscLe a b = true ∨ tsAscLe b a = true := by
  simp only [tsAscLe, decide_eq_true_eq]
  exact Nat.le_total _ _

theorem tsAscLe_trans (a b c : Message) (h1 : tsAscLe a b = true)
    (h2 : tsAscLe b c = true) : tsAscLe a c = true := by
  simp only [tsAscLe, decide_eq_true_eq] at h1 h2 ⊢
  exact Nat.le_trans h1 h2

/-! ### Name-resolver lemmas and claims C1, C8 -/

theorem cacheFind_nil (k : String) : cacheFind [] k = none := rfl

theorem cacheFind_insert (c : Cache) (k : String) (v : Option String) :
    cacheFind (cacheInsert c k v) k = some v := by
  simp [cacheFind, cacheInsert, List.find?_cons_of_pos]

/-- with an empty cache, the contact lookup computes `contactNameSpec`. -/
theorem contact_empty_cache (db : Db) (jid : String) :
    (get_contact_name_from_whatsmeow (some db) [] jid).1 = contactNameSpec db jid := by
  simp only [get_contact_name_from_whatsmeow, contactNameSpec, contactPrefixStep,
    cacheFind_nil]
  cases hx : db.contacts.find? (fun c => c.their_jid == normalizeJid jid) with
  | some row =>
    by_cases ht : optTruthy (contactRowName row) = true
    · cases hcn : contactRowName row with
      | none => rw [hcn] at ht; simp [optTruthy] at ht
      | some s => rw [hcn] at ht; simp [ht, hcn]
    · simp only [Bool.not_eq_true] at ht
      by_cases hat : strContainsChar jid '@' = true
      · cases hp : db.contacts.find?
            (fun c => strPrefixOf (localPart jid ++ "@") c.their_jid) with
        | some r =>
          by_cases htr : optTruthy (contactRowName r) = true
          · simp [ht, hat, htr, hp]
          · simp only [Bool.not_eq_true] at htr
            simp [ht, hat, htr, hp]
        | none => simp [ht, hat, hp]
      · simp only [Bool.not_eq_true] at hat
        simp [ht, hat]
  | none =>
    by_cases hat : strContainsChar jid '@' = true
    · cases hp : db.contacts.find?
          (fun c => strPrefixOf (localPart jid ++ "@") c.their_jid) with
      | some r =>
        by_cases htr : optTruthy (contactRowName r) = true
        · simp [hat, htr, hp]
        · simp only [Bool.not_eq_true] at htr
          simp [hat, htr, hp]
      | none => simp [hat, hp]
    · simp only [Bool.not_eq_true] at hat
      simp [hat]

/-- a name produced by the truthiness-filtered row picker is non-empty. -/
theorem truthyPick_nonempty {o : Option ContactRow} {n : String}
    (h : (o.bind (fun r => if optTruthy (contactRowName r) = true
        then contactRowName r else none)) = some n) :
    (n == "") = false := by
  cases o with
  | none => simp at h
  | some r =>
    have h2 : (if optTruthy (contactRowName r) = true
        then contactRowName r else none) = some n := h
    by_cases ht : optTruthy (contactRowName r) = true
    · rw [if_pos ht] at h2
      rw [h2] at ht
      simp only [optTruthy] at ht
      cases hb : (n == "") with
      | false => rfl
      | true => rw [hb] at ht; exact absurd ht (by decide)
    · rw [if_neg ht] at h2
      exact absurd h2 (by simp)

/-- `contactNameSpec` never yields an empty name. -/
theorem contactNameSpec_nonempty (db : Db) (jid : String) (n : String)
    (h : contactNameSpec db jid = some n) : (n == "") = false := by
  unfold contactNameSpec at h
  cases hx : (db.contacts.find? (fun c => c.their_jid == normalizeJid jid)).bind
      (fun r => if optTruthy (contactRowName r) = true
        then contactRowName r else none) with
  | some m =>
    rw [hx] at h
    simp only [Option.some.injEq] at h
    exact h ▸ truthyPick_nonempty hx
  | none =>
    rw [hx] at h
    by_cases hat : strContainsChar jid '@' = true
    · rw [if_pos hat] at h
      exact truthyPick_nonempty h
    · rw [if_neg hat] at h
      exact absurd h (by simp)

/-- the first component of the chats fallback, written as a bare cascade. -/
theorem chatsFallback_fst (db : Db) (jid : String) :
    (chatsFallback db jid).1 =
      match db.chats.find? (fun c => c.jid == jid) with
      | some row => if optTruthy row.name then row.name.getD "" else localPart jid
      | none =>
        match db.chats.find? (fun c => containsSub c.jid (localPart jid)) with
        | some row => if optTruthy row.name then row.name.getD "" else localPart jid
        | none => localPart jid := by
  unfold chatsFallback
  cases h1 : db.chats.find? (fun c => c.jid == jid) with
  | some row => rfl
  | none =>
    cases h2 : db.chats.find? (fun c => containsSub c.jid (localPart jid)) with
    | some row => rfl
    | none => rfl

/-- **C1 (amended).** Name resolution never fails (the embedded resolver is a
total function), and with an empty cache it computes exactly the cascade
`resolveAmended`: the first non-empty of full_name, push_name, business_name
from the exact normalized-JID contact row, then - only when the given JID
itself contains an at sign - from the first local-part-prefix contact row;
then the chats-table name of the exact-JID row when one exists (a row with an
absent or empty name falls to the local part without trying the substring
retry), otherwise of the first row whose JID contains the local part; and
finally the JID local part before the at sign, or the raw JID when it
contains none. -/
theorem c1_resolution_cascade (db : Db) (jid : String) :
    (get_sender_name (some db) [] jid).1 = resolveAmended db jid := by
  by_cases h : optTruthy (get_contact_name_from_whatsmeow (some db) [] jid).1 = true
  · have h2 := h
    rw [contact_empty_cache] at h2
    unfold get_sender_name
    rw [if_pos h]
    show (get_contact_name_from_whatsmeow (some db) [] jid).1.getD "" = _
    rw [contact_empty_cache]
    cases hcn : contactNameSpec db jid with
    | none => rw [hcn] at h2; simp [optTruthy] at h2
    | some n => simp [resolveAmended, hcn]
  · have h2 := h
    rw [contact_empty_cache] at h2
    simp only [Bool.not_eq_true] at h h2
    unfold get_sender_name
    rw [if_neg (by simp [h])]
    show (chatsFallback db jid).1 = resolveAmended db jid
    have hcn : contactNameSpec db jid = none := by
      cases hcn : contactNameSpec db jid with
      | none => rfl
      | some n =>
        have := contactNameSpec_nonempty db jid n hcn
        rw [hcn] at h2
        simp [optTruthy, this] at h2
    rw [chatsFallback_fst]
    unfold resolveAmended
    rw [hcn]

/-- **C1 (counterexample).** For the bare JID "123" (no at sign) with a
contact row reachable only through the local-part-prefix query, the code
returns the raw JID while the cascade the claim describes (which tries the
prefix match for every JID) returns the contact name "Ann": the claimed
precedence is not what the code implements. -/
theorem c1_counterexample :
    (get_sender_name (some dbC1) [] "123").1 = "123"
      ∧ claimC1Resolve dbC1 "123" = "Ann" := by
  constructor
  · rfl
  · rfl

/-! ### Claim C8: the name-resolution cache -/

theorem contact_cache_hit (st : Option Db) (cache : Cache) (jid : String)
    (v : Option String) (h : cacheFind cache (normalizeJid jid) = some v) :
    get_contact_name_from_whatsmeow st cache jid = (v, cache, []) := by
  unfold get_contact_name_from_whatsmeow
  simp [h]

/-- after any lookup against a live store, the cache maps the normalized JID
to exactly the contact-source outcome the lookup returned. -/
theorem contact_caches_outcome (db : Db) (cache : Cache) (jid : String) :
    cacheFind (get_contact_name_from_whatsmeow (some db) cache jid).2.1 (normalizeJid jid)
      = some (get_contact_name_from_whatsmeow (some db) cache jid).1 := by
  simp only [get_contact_name_from_whatsmeow, contactPrefixStep]
  cases hc : cacheFind cache (normalizeJid jid) with
  | some v => simp [hc]
  | none =>
    cases hx : db.contacts.find? (fun c => c.their_jid == normalizeJid jid) with
    | some row =>
      by_cases ht : optTruthy (contactRowName row) = true
      · simp [hc, hx, ht, cacheFind_insert]
      · simp only [Bool.not_eq_true] at ht
        by_cases hat : strContainsChar jid '@' = true
        · cases hp : db.contacts.find?
              (fun c => strPrefixOf (localPart jid ++ "@") c.their_jid) with
          | some r =>
            by_cases htr : optTruthy (contactRowName r) = true
            · simp [hc, hx, ht, hat, hp, htr, cacheFind_insert]
            · simp only [Bool.not_eq_true] at htr
              simp [hc, hx, ht, hat, hp, htr, cacheFind_insert]
          | none => simp [hc, hx, ht, hat, hp, cacheFind_insert]
        · simp only [Bool.not_eq_true] at hat
          simp [hc, hx, ht, hat, cacheFind_insert]
    | none =>
      by_cases hat : strContainsChar jid '@' = true
      · cases hp : db.contacts.find?
            (fun c => strPrefixOf (localPart jid ++ "@") c.their_jid) with
        | some r =>
          by_cases htr : optTruthy (contactRowName r) = true
          · simp [hc, hx, hat, hp, htr, cacheFind_insert]
          · simp only [Bool.not_eq_true] at htr
            simp [hc, hx, hat, hp, htr, cacheFind_insert]
        | none => simp [hc, hx, hat, hp, cacheFind_insert]
      · simp only [Bool.not_eq_true] at hat
        simp [hc, hx, hat, cacheFind_insert]

/-- a repeated contact lookup is served from the cache: same value, cache
unchanged, no store events at all. -/
theorem contact_second_lookup (db : Db) (cache : Cache) (jid : String) :
    get_contact_name_from_whatsmeow (some db)
        (get_contact_name_from_whatsmeow (some db) cache jid).2.1 jid
      = ((get_contact_name_from_whatsmeow (some db) cache jid).1,
         (get_contact_name_from_whatsmeow (some db) cache jid).2.1, []) :=
  contact_cache_hit (some db) _ jid _ (contact_caches_outcome db cache jid)

/-- `get_sender_name` passes the contact-step cache through unchanged. -/
theorem sender_cache_eq (st : Option Db) (cache : Cache) (jid : String) :
    (get_sender_name st cache jid).2.1
      = (get_contact_name_from_whatsmeow st cache jid).2.1 := by
  unfold get_sender_name
  by_cases h : optTruthy (get_contact_name_from_whatsmeow st cache jid).1 = true
  · rw [if_pos h]
  · rw [if_neg h]
    cases st with
    | none => rfl
    | some db => rfl

theorem queryChats_mem_chatsFallback (db : Db) (jid : String) :
    Event.queryChats ∈ (chatsFallback db jid).2 := by
  unfold chatsFallback
  cases h1 : db.chats.find? (fun c => c.jid == jid) with
  | some row => simp
  | none =>
    cases h2 : db.chats.find? (fun c => containsSub c.jid (localPart jid)) with
    | some row => simp
    | none => simp

/-- **C8 (amended).** The resolver caches, under the normalized JID, only the
contact-source outcome - the resolved contact name, or the explicit negative
`none` marker - so a repeated lookup of the same JID skips the contact-source
query entirely and returns the same value; but when the cached outcome is
negative the chats-table fallback is re-executed (re-queried) on every
lookup. -/
theorem c8_cache_contract (db : Db) (cache : Cache) (jid : String) :
    (cacheFind (get_contact_name_from_whatsmeow (some db) cache jid).2.1 (normalizeJid jid)
        = some (get_contact_name_from_whatsmeow (some db) cache jid).1)
    ∧ (get_contact_name_from_whatsmeow (some db)
          (get_contact_name_from_whatsmeow (some db) cache jid).2.1 jid
        = ((get_contact_name_from_whatsmeow (some db) cache jid).1,
           (get_contact_name_from_whatsmeow (some db) cache jid).2.1, []))
    ∧ ((get_sender_name (some db) (get_sender_name (some db) cache jid).2.1 jid).1
        = (get_sender_name (some db) cache jid).1)
    ∧ (optTruthy (get_contact_name_from_whatsmeow (some db) cache jid).1 = false →
        Event.queryChats ∈
          (get_sender_name (some db) (get_sender_name (some db) cache jid).2.1 jid).2.2) := by
  refine ⟨contact_caches_outcome db cache jid, contact_second_lookup db cache jid, ?_, ?_⟩
  · rw [sender_cache_eq]
    unfold get_sender_name
    rw [contact_second_lookup db cache jid]
    by_cases h : optTruthy (get_contact_name_from_whatsmeow (some db) cache jid).1 = true
    · rw [if_pos h, if_pos h]
    · rw [if_neg h, if_neg h]
  · intro h
    rw [sender_cache_eq]
    unfold get_sender_name
    rw [contact_second_lookup db cache jid]
    rw [if_neg (by simp [h])]
    show Event.queryChats ∈ [] ++ (chatsFallback db jid).2
    simpa using queryChats_mem_chatsFallback db jid

/-- **C8 (witness).** Concrete run of the amended cache contract on `dbC8`
with an empty cache, discharging the negative-outcome hypothesis. -/
theorem c8_cache_contract_witness :
    Event.queryChats ∈
      (get_sender_name (some dbC8)
        (get_sender_name (some dbC8) [] "77@s.whatsapp.net").2.1 "77@s.whatsapp.net").2.2 :=
  (c8_cache_contract dbC8 [] "77@s.whatsapp.net").2.2.2 (by decide)

/-- **C8 (counterexample).** On `dbC8` the first lookup of
"77@s.whatsapp.net" resolves to the chat name "Bob", yet the cache stores the
negative marker (not "Bob"), and the repeated lookup queries the chats table
again - contradicting the claim that the first successful step's value is
cached and that a repeated lookup re-queries neither data source. -/
theorem c8_counterexample :
    (get_sender_name (some dbC8) [] "77@s.whatsapp.net").1 = "Bob"
    ∧ cacheFind (get_sender_name (some dbC8) [] "77@s.whatsapp.net").2.1
        "77@s.whatsapp.net" = some none
    ∧ Event.queryChats ∈
        (get_sender_name (some dbC8)
          (get_sender_name (some dbC8) [] "77@s.whatsapp.net").2.1
          "77@s.whatsapp.net").2.2 := by
  refine ⟨rfl, rfl, ?_⟩
  decide

/-! ### Message-store reader lemmas -/

theorem mem_messagesJoin {db : Db} {x : Message} :
    x ∈ messagesJoin db ↔ ∃ mr ∈ db.messages, ∃ c ∈ db.chats,
      c.jid = mr.chat_jid ∧ x = joinRow mr c := by
  simp only [messagesJoin, List.mem_flatMap, List.mem_map, List.mem_filter, beq_iff_eq]
  constructor
  · rintro ⟨mr, hmr, c, ⟨hc, hcj⟩, rfl⟩
    exact ⟨mr, hmr, c, hc, hcj, rfl⟩
  · rintro ⟨mr, hmr, c, hc, hcj, rfl⟩
    exact ⟨mr, hmr, c, ⟨hc, hcj⟩, rfl⟩

/-- under a well-formed store, a join row is determined by its message id. -/
theorem join_unique (db : Db) (hwf : db.Wf) (y : Message) (hy : y ∈ messagesJoin db)
    (x : Message) (hx : x ∈ messagesJoin db) (hid : y.id = x.id) : y = x := by
  obtain ⟨hmids, hcids, _⟩ := hwf
  obtain ⟨mr, hmr, c, hc, hcj, rfl⟩ := mem_messagesJoin.mp hy
  obtain ⟨mr2, hmr2, c2, hc2, hcj2, rfl⟩ := mem_messagesJoin.mp hx
  have hmeq : mr = mr2 :=
    List.inj_on_of_nodup_map hmids hmr hmr2 (by simpa [joinRow] using hid)
  subst hmeq
  have hceq : c = c2 :=
    List.inj_on_of_nodup_map hcids hc hc2 (hcj.trans hcj2.symm)
  subst hceq
  rfl

/-- the target lookup of `get_message_context` on the id of a join row
returns that row itself. -/
theorem find?_join_self (db : Db) (hwf : db.Wf) (x : Message)
    (hx : x ∈ messagesJoin db) :
    (messagesJoin db).find? (fun y => y.id == x.id) = some x := by
  have hex : ∃ y ∈ messagesJoin db, (y.id == x.id) = true := ⟨x, hx, by simp⟩
  obtain ⟨tgt, htgt⟩ := Option.isSome_iff_exists.mp (List.find?_isSome.mpr hex)
  rw [htgt]
  have htm := List.mem_of_find?_eq_some htgt
  have htp := List.find?_some htgt
  have hid : tgt.id = x.id := by simpa using htp
  exact congrArg some (join_unique db hwf tgt htm x hx hid)

/-- rows selected by `list_messages` are join rows. -/
theorem rows_subset_join (db : Db) (after before : Option Nat)
    (sender chat q : Option String) (limit page : Nat) (m : Message)
    (hm : m ∈ list_messages_rows db after before sender chat q limit page) :
    m ∈ messagesJoin db ∧ lmFilter after before sender chat q m = true := by
  have h1 := mem_paginate _ _ _ _ hm
  rw [mem_sortByLe, List.mem_filter] at h1
  exact h1

/-- a matched join row has a successful context lookup centred on itself. -/
theorem context_ok_of_mem_join (db : Db) (hwf : db.Wf) (m : Message)
    (hm : m ∈ messagesJoin db) (cb ca : Nat) :
    ∃ ctx, (get_message_context (some db) m.id cb ca).1 = Except.ok ctx
      ∧ ctx.message = m := by
  have hfind := find?_join_self db hwf m hm
  refine ⟨⟨m,
    (sortByLe tsDescLe ((messagesJoin db).filter
      (fun x => x.chat_jid == m.chat_jid && decide (x.timestamp < m.timestamp)))).take cb,
    (sortByLe tsAscLe ((messagesJoin db).filter
      (fun x => x.chat_jid == m.chat_jid && decide (m.timestamp < x.timestamp)))).take ca⟩,
    ?_, rfl⟩
  simp [get_message_context, hfind]

/-- when every element's context lookup succeeds, the context loop emits the
flattened concatenation of the triples in order. -/
theorem add_context_ok (st : Option Db) (cb ca : Nat) (l : List Message)
    (h : ∀ m ∈ l, ∃ ctx, (get_message_context st m.id cb ca).1 = Except.ok ctx) :
    (add_context st cb ca l).1 = Except.ok (l.flatMap (contextTriple st cb ca)) := by
  induction l with
  | nil => rfl
  | cons m rest ih =>
    obtain ⟨ctx, hctx⟩ := h m (List.mem_cons_self m rest)
    have hrest := ih (fun x hx => h x (List.mem_cons_of_mem m hx))
    cases hp : get_message_context st m.id cb ca with
    | mk r ev =>
      rw [hp] at hctx
      simp only at hctx
      subst hctx
      cases hq : add_context st cb ca rest with
      | mk r2 ev2 =>
        rw [hq] at hrest
        simp only at hrest
        subst hrest
        simp only [add_context, hp, hq, List.flatMap_cons]
        have htrip : contextTriple st cb ca m = ctx.before ++ ctx.message :: ctx.after := by
          simp [contextTriple, hp]
        rw [htrip]

/-! ### Claim C2: list_messages selection, ordering, pagination -/

/-- **C2.** For valid bounds `a < b`, the rows `list_messages` selects
contain only join rows that pass every provided filter - in particular
`a < timestamp < b` strictly on both sides, exact sender and chat matches,
and the text query as a case-insensitive substring of the content, all
conjoined - they are ordered by timestamp non-increasing, and they are the
slice at offset `page * limit` of the full ordered result. -/
theorem c2_list_messages_select (db : Db) (a b : Nat)
    (sender chat q : Option String) (limit page : Nat) (hab : a < b) :
    (∀ m ∈ list_messages_rows db (some a) (some b) sender chat q limit page,
        m ∈ messagesJoin db
        ∧ a < m.timestamp ∧ m.timestamp < b
        ∧ (∀ s, sender = some s → m.sender = s)
        ∧ (∀ c, chat = some c → m.chat_jid = c)
        ∧ (∀ qs, q = some qs → containsSub (lowerStr m.content) (lowerStr qs) = true))
    ∧ (list_messages_rows db (some a) (some b) sender chat q limit page).Pairwise
        (fun x y => y.timestamp ≤ x.timestamp)
    ∧ list_messages_rows db (some a) (some b) sender chat q limit page
        = (list_messages_rows db (some a) (some b) sender chat q
            (page * limit + limit) 0).drop (page * limit) := by
  refine ⟨?_, ?_, ?_⟩
  · intro m hm
    obtain ⟨hmem, hfil⟩ := rows_subset_join db _ _ _ _ _ _ _ m hm
    simp only [lmFilter, Bool.and_eq_true] at hfil
    obtain ⟨⟨⟨⟨hA, hB⟩, hS⟩, hC⟩, hQ⟩ := hfil
    refine ⟨hmem, ?_, ?_, ?_, ?_, ?_⟩
    · simpa [optFilter] using hA
    · simpa [optFilter] using hB
    · intro s hs
      rw [hs] at hS
      simpa [optFilter] using hS
    · intro c hc
      rw [hc] at hC
      simpa [optFilter] using hC
    · intro qs hq
      rw [hq] at hQ
      simpa [optFilter] using hQ
  · exact List.Pairwise.imp (fun h => by simpa [tsDescLe] using h)
      (pairwise_paginate _ _ _
        (pairwise_sortByLe tsDescLe tsDescLe_total tsDescLe_trans _))
  · exact paginate_shift _ limit page

/-- **C2 (witness).** the select on the three-message store with bounds
`1 < timestamp < 3` is ordered by timestamp non-increasing. -/
theorem c2_list_messages_select_witness :
    (list_messages_rows dbMsgs (some 1) (some 3) none none none 5 0).Pairwise
      (fun x y => y.timestamp ≤ x.timestamp) :=
  (c2_list_messages_select dbMsgs 1 3 none none none 5 0 (by decide)).2.1

/-! ### Claim C3: get_message_context -/

/-- **C3 (amended).** Under a well-formed store, `get_message_context` fails
with the NotFound `ValueError` when no message has the given id; otherwise it
returns the target message, at most `b` strictly earlier messages of the same
chat in DESCENDING timestamp order - the fetch order, which the code does not
reverse, so the list is chronological only once reversed - and at most `a`
strictly later messages of the same chat in ascending order. -/
theorem c3_message_context (db : Db) (message_id : String) (b a : Nat)
    (hwf : db.Wf) :
    ((∀ m ∈ db.messages, m.id ≠ message_id) →
      (get_message_context (some db) message_id b a).1
        = Except.error ("Message with ID " ++ message_id ++ " not found"))
    ∧ (∀ mr ∈ db.messages, mr.id = message_id →
        ∃ ctx, (get_message_context (some db) message_id b a).1 = Except.ok ctx
          ∧ ctx.message.id = message_id
          ∧ ctx.before.length ≤ b
          ∧ (∀ m ∈ ctx.before, m.chat_jid = ctx.message.chat_jid
              ∧ m.timestamp < ctx.message.timestamp)
          ∧ ctx.before.Pairwise (fun x y => y.timestamp ≤ x.timestamp)
          ∧ ctx.after.length ≤ a
          ∧ (∀ m ∈ ctx.after, m.chat_jid = ctx.message.chat_jid
              ∧ ctx.message.timestamp < m.timestamp)
          ∧ ctx.after.Pairwise (fun x y => x.timestamp ≤ y.timestamp)) := by
  constructor
  · intro hall
    have hnone : (messagesJoin db).find? (fun m => m.id == message_id) = none := by
      rw [List.find?_eq_none]
      intro x hx
      obtain ⟨mr, hmr, c, hc, hcj, rfl⟩ := mem_messagesJoin.mp hx
      simp only [joinRow, beq_iff_eq]
      exact hall mr hmr
    simp [get_message_context, hnone]
  · intro mr hmr hid
    obtain ⟨c, hc, hcj⟩ := hwf.2.2 mr hmr
    have hjmem : joinRow mr c ∈ messagesJoin db :=
      mem_messagesJoin.mpr ⟨mr, hmr, c, hc, hcj, rfl⟩
    have hfind := find?_join_self db hwf (joinRow mr c) hjmem
    have hjid : (joinRow mr c).id = message_id := hid
    rw [hjid] at hfind
    refine ⟨⟨joinRow mr c,
      (sortByLe tsDescLe ((messagesJoin db).filter
        (fun x => x.chat_jid == (joinRow mr c).chat_jid
          && decide (x.timestamp < (joinRow mr c).timestamp)))).take b,
      (sortByLe tsAscLe ((messagesJoin db).filter
        (fun x => x.chat_jid == (joinRow mr c).chat_jid
          && decide ((joinRow mr c).timestamp < x.timestamp)))).take a⟩,
      ?_, hjid, ?_, ?_, ?_, ?_, ?_, ?_⟩
    · simp [get_message_context, hfind]
    · rw [List.length_take]
      exact min_le_left _ _
    · intro m hm
      have h1 := List.mem_of_mem_take hm
      rw [mem_sortByLe, List.mem_filter] at h1
      have h2 := h1.2
      simp only [Bool.and_eq_true, beq_iff_eq, decide_eq_true_eq] at h2
      exact h2
    · exact List.Pairwise.imp (fun h => by simpa [tsDescLe] using h)
        (List.Pairwise.sublist (List.take_sublist _ _)
          (pairwise_sortByLe tsDescLe tsDescLe_total tsDescLe_trans _))
    · rw [List.length_take]
      exact min_le_left _ _
    · intro m hm
      have h1 := List.mem_of_mem_take hm
      rw [mem_sortByLe, List.mem_filter] at h1
      have h2 := h1.2
      simp only [Bool.and_eq_true, beq_iff_eq, decide_eq_true_eq] at h2
      exact h2
    · exact List.Pairwise.imp (fun h => by simpa [tsAscLe] using h)
        (List.Pairwise.sublist (List.take_sublist _ _)
          (pairwise_sortByLe tsAscLe tsAscLe_total tsAscLe_trans _))

/-- **C3 (witness).** the NotFound branch of the amended statement at a
concrete absent id. -/
theorem c3_message_context_witness :
    (get_message_context (some dbMsgs) "zz" 2 2).1
      = Except.error ("Message with ID " ++ "zz" ++ " not found") :=
  (c3_message_context dbMsgs "zz" 2 2 (by decide)).1 (by decide)

/-- **C3 (counterexample).** Context of the latest of three messages: the
returned before-window is `[m2, m1]` - descending, NOT in ascending
chronological order as the claim states; the code never reverses the
descending fetch order. -/
theorem c3_counterexample :
    (get_message_context (some dbMsgs) "m3" 2 2).1
      = Except.ok ⟨joinRow mC chatG, [joinRow mB chatG, joinRow mA chatG], []⟩
    ∧ ¬ List.Pairwise (fun x y : Message => x.timestamp ≤ y.timestamp)
        [joinRow mB chatG, joinRow mA chatG] := by
  refine ⟨rfl, by decide⟩

/-! ### Claim C4: include_context flattening -/

/-- with context requested and a nonempty match list, `list_messages` formats
exactly the flattened triple concatenation (shared helper). -/
theorem list_messages_with_context_formats (db : Db) (cache : Cache)
    (sender chat q : Option String) (limit page cb ca : Nat) (hwf : db.Wf)
    (hne : list_messages_rows db none none (pyArg sender) (pyArg chat) (pyArg q)
      limit page ≠ []) :
    (list_messages (some db) cache none none sender chat q limit page true cb ca).1
      = Except.ok (LMResult.formatted
          (format_messages_list (some db) cache
            ((list_messages_rows db none none (pyArg sender) (pyArg chat) (pyArg q)
              limit page).flatMap (contextTriple (some db) cb ca)) true).1) := by
  have h1 : (add_context (some db) cb ca
      (list_messages_rows db none none (pyArg sender) (pyArg chat) (pyArg q) limit page)).1
      = Except.ok ((list_messages_rows db none none (pyArg sender) (pyArg chat) (pyArg q)
          limit page).flatMap (contextTriple (some db) cb ca)) := by
    apply add_context_ok
    intro m hm
    obtain ⟨ctx, hok, _⟩ := context_ok_of_mem_join db hwf m
      (rows_subset_join db _ _ _ _ _ _ _ m hm).1 cb ca
    exact ⟨ctx, hok⟩
  have hemp : (list_messages_rows db none none (pyArg sender) (pyArg chat) (pyArg q)
      limit page).isEmpty = false := by
    cases hrows : list_messages_rows db none none (pyArg sender) (pyArg chat) (pyArg q)
        limit page with
    | nil => exact absurd hrows hne
    | cons x xs => rfl
  cases hp : add_context (some db) cb ca
      (list_messages_rows db none none (pyArg sender) (pyArg chat) (pyArg q) limit page) with
  | mk r ev =>
    rw [hp] at h1
    simp only at h1
    subst h1
    simp [list_messages, parseBound, hemp, hp]

/-- **C4.** Under a well-formed store, when the select matches at least one
message and context is requested, the context loop succeeds and emits exactly
the flattened concatenation of the per-match triples
`(before-window, message, after-window)` in match order - each triple centred
on the matched message itself, with no deduplication across overlapping
windows - and `list_messages` formats exactly that flattened sequence. -/
theorem c4_context_flattening (db : Db) (cache : Cache)
    (sender chat q : Option String) (limit page cb ca : Nat) (hwf : db.Wf)
    (hne : list_messages_rows db none none (pyArg sender) (pyArg chat) (pyArg q)
      limit page ≠ []) :
    ((add_context (some db) cb ca
        (list_messages_rows db none none (pyArg sender) (pyArg chat) (pyArg q) limit page)).1
      = Except.ok ((list_messages_rows db none none (pyArg sender) (pyArg chat) (pyArg q)
          limit page).flatMap (contextTriple (some db) cb ca)))
    ∧ (∀ m ∈ list_messages_rows db none none (pyArg sender) (pyArg chat) (pyArg q) limit page,
        ∃ ctx, (get_message_context (some db) m.id cb ca).1 = Except.ok ctx
          ∧ ctx.message = m
          ∧ contextTriple (some db) cb ca m = ctx.before ++ m :: ctx.after)
    ∧ ((list_messages (some db) cache none none sender chat q limit page true cb ca).1
        = Except.ok (LMResult.formatted
            (format_messages_list (some db) cache
              ((list_messages_rows db none none (pyArg sender) (pyArg chat) (pyArg q)
                limit page).flatMap (contextTriple (some db) cb ca)) true).1)) := by
  refine ⟨?_, ?_, list_messages_with_context_formats db cache sender chat q limit page cb ca hwf hne⟩
  · apply add_context_ok
    intro m hm
    obtain ⟨ctx, hok, _⟩ := context_ok_of_mem_join db hwf m
      (rows_subset_join db _ _ _ _ _ _ _ m hm).1 cb ca
    exact ⟨ctx, hok⟩
  · intro m hm
    obtain ⟨ctx, hok, hmsg⟩ := context_ok_of_mem_join db hwf m
      (rows_subset_join db _ _ _ _ _ _ _ m hm).1 cb ca
    refine ⟨ctx, hok, hmsg, ?_⟩
    simp only [contextTriple, hok]
    rw [hmsg]

/-- **C4 (witness).** the flattening equation on the three-message store with
single-message windows (the triples of adjacent matches overlap and the
concatenation keeps the duplicates). -/
theorem c4_context_flattening_witness :
    (add_context (some dbMsgs) 1 1
        (list_messages_rows dbMsgs none none (pyArg none) (pyArg none) (pyArg none) 5 0)).1
      = Except.ok ((list_messages_rows dbMsgs none none (pyArg none) (pyArg none) (pyArg none)
          5 0).flatMap (contextTriple (some dbMsgs) 1 1)) :=
  (c4_context_flattening dbMsgs [] none none none 5 0 1 1 (by decide) (by decide)).1

/-! ### Claim C9: the empty-list sentinel -/

/-- **C9.** `format_messages_list` applied to the empty message list returns
the literal sentinel for every value of `show_chat_info` (and every store and
cache state); being a total Lean function it never raises. -/
theorem c9_format_empty_sentinel (st : Option Db) (cache : Cache) (sci : Bool) :
    (format_messages_list st cache [] sci).1 = "No messages to display." := rfl

/-! ### Claim C10: result shapes of list_messages -/

/-- **C10.** `list_messages` has type-divergent results: on a store failure
it returns the raw empty list, while whenever the store queries succeed it
returns the single formatted string produced by `format_messages_list` - both
without context expansion and (under a well-formed store) with it. -/
theorem c10_result_shapes (db : Db) (cache : Cache)
    (sender chat q : Option String) (limit page cb ca : Nat) (hwf : db.Wf) :
    (∀ cache2 a2 b2 s2 c2 q2 lim2 p2 ic2 cb2 ca2,
      (list_messages none cache2 a2 b2 s2 c2 q2 lim2 p2 ic2 cb2 ca2).1
        = Except.ok LMResult.emptyList)
    ∧ ((list_messages (some db) cache none none sender chat q limit page false cb ca).1
        = Except.ok (LMResult.formatted
            (format_messages_list (some db) cache
              (list_messages_rows db none none (pyArg sender) (pyArg chat) (pyArg q)
                limit page) true).1))
    ∧ ((list_messages (some db) cache none none sender chat q limit page true cb ca).1
        = Except.ok (LMResult.formatted
            (format_messages_list (some db) cache
              ((list_messages_rows db none none (pyArg sender) (pyArg chat) (pyArg q)
                limit page).flatMap (contextTriple (some db) cb ca)) true).1)) := by
  refine ⟨fun _ _ _ _ _ _ _ _ _ _ _ => rfl, ?_, ?_⟩
  · simp [list_messages, parseBound]
  · by_cases hne : list_messages_rows db none none (pyArg sender) (pyArg chat) (pyArg q)
        limit page = []
    · simp [list_messages, parseBound, hne]
    · exact list_messages_with_context_formats db cache sender chat q limit page cb ca hwf hne

/-- **C10 (witness).** the no-context success shape on the three-message
store. -/
theorem c10_result_shapes_witness :
    (list_messages (some dbMsgs) [] none none none none none 5 0 false 1 1).1
      = Except.ok (LMResult.formatted
          (format_messages_list (some dbMsgs) []
            (list_messages_rows dbMsgs none none (pyArg none) (pyArg none) (pyArg none)
              5 0) true).1) :=
  (c10_result_shapes dbMsgs [] none none none 5 0 1 1 (by decide)).2.1

/-! ### Claim C5: list_chats -/

theorem nameAscLe_total (x y : JoinedChat) :
    nameAscLe x y = true ∨ nameAscLe y x = true :=
  optStrLe_total x.name y.name

theorem nameAscLe_trans (x y z : JoinedChat) (h1 : nameAscLe x y = true)
    (h2 : nameAscLe y z = true) : nameAscLe x z = true :=
  optStrLe_trans x.name y.name z.name h1 h2

theorem lmtDescLe_total (x y : JoinedChat) :
    lmtDescLe x y = true ∨ lmtDescLe y x = true :=
  (optNatLe_total y.last_message_time x.last_message_time).imp id id

theorem lmtDescLe_trans (x y z : JoinedChat) (h1 : lmtDescLe x y = true)
    (h2 : lmtDescLe y z = true) : lmtDescLe x z = true :=
  optNatLe_trans z.last_message_time y.last_message_time x.last_message_time h2 h1

/-- **C5 (amended).** With `include_last_message` set and a live store:
a provided (truthy) query filters the fetched rows by a case-insensitive
substring match on the STORED chat name OR a raw substring match on the JID;
with `sort_by = "name"` the fetched rows are in non-decreasing binary order
of the STORED name (absent names first) and with `sort_by = "last_active"`
in non-increasing `last_message_time` order (absent last); pagination is the
slice at offset `page * limit`; and the returned `Chat` list is the per-row
display-name mapping of those rows - the contact-name / local-part
substitution it applies can leave the RETURNED name fields out of order. -/
theorem c5_list_chats (db : Db) (cache : Cache) (query : Option String)
    (limit page : Nat) :
    (∀ q, pyArg query = some q →
      ∀ sb, ∀ r ∈ list_chats_rows db query limit page sb,
        chatNameMatches r.name q = true ∨ containsSub r.jid q = true)
    ∧ (list_chats_rows db query limit page "name").Pairwise
        (fun x y => optStrLe x.name y.name = true)
    ∧ (list_chats_rows db query limit page "last_active").Pairwise
        (fun x y => optNatLe y.last_message_time x.last_message_time = true)
    ∧ (∀ sb, list_chats_rows db query limit page sb
        = (list_chats_rows db query (page * limit + limit) 0 sb).drop (page * limit))
    ∧ (∀ sb, (list_chats (some db) cache query limit page true sb).1
        = (display_chats (some db) cache (list_chats_rows db query limit page sb)).1) := by
  refine ⟨?_, ?_, ?_, ?_, fun sb => rfl⟩
  · intro q hq sb r hr
    simp only [list_chats_rows, hq] at hr
    have h1 := mem_paginate _ _ _ _ hr
    rw [mem_sortByLe, List.mem_filter] at h1
    have h2 := h1.2
    simpa [chatQueryFilter, Bool.or_eq_true] using h2
  · exact List.Pairwise.imp id
      (pairwise_paginate _ _ _
        (pairwise_sortByLe nameAscLe nameAscLe_total nameAscLe_trans _))
  · exact List.Pairwise.imp id
      (pairwise_paginate _ _ _
        (pairwise_sortByLe lmtDescLe lmtDescLe_total lmtDescLe_trans _))
  · intro sb
    exact paginate_shift _ limit page

/-- **C5 (witness).** the filter disjunction of the amended statement at the
concrete row for "Bob" selected by the query "b". -/
theorem c5_list_chats_witness :
    chatNameMatches jcBob.name "b" = true ∨ containsSub jcBob.jid "b" = true :=
  (c5_list_chats dbC5 [] (some "b") 20 0).1 "b" rfl "name" jcBob (by decide)

/-- **C5 (counterexample).** With `sort_by = "name"` the rows are sorted by
the STORED names (Alice, Bob), but the returned `Chat.name` fields after the
contact-name substitution are `["Zed", "Bob"]` - not in non-decreasing
lexicographic order, contradicting the claim about the returned chats. -/
theorem c5_counterexample :
    ((list_chats (some dbC5) [] none 20 0 true "name").1.map (fun c => c.name)
        = [some "Zed", some "Bob"])
    ∧ ¬ List.Pairwise (fun x y : Chat => optStrLe x.name y.name = true)
        (list_chats (some dbC5) [] none 20 0 true "name").1 := by
  refine ⟨rfl, by decide⟩

/-! ### Claim C6: InvalidArgument rejection -/

/-- **C6 (amended).** An unparseable `after`/`before` value makes
`list_messages` raise the descriptive `ValueError` after the store connection
has been opened but before any query is executed (the recorded trace is
exactly the connect event - no query, no post); a missing required argument
of the send/watch operations is rejected with `success=False` and a
descriptive message before any network call (empty trace). -/
theorem c6_invalid_rejection (db : Db) (cache : Cache) :
    (∀ bnd sender chat q limit page ic cb ca s, fromisoformat s = none → s ≠ "" →
      list_messages (some db) cache (some s) bnd sender chat q limit page ic cb ca
        = (Except.error ("Invalid date format for after: " ++ s
            ++ ". Please use ISO-8601 format."), cache, [Event.connectMessageStore]))
    ∧ (∀ sender chat q limit page ic cb ca s, fromisoformat s = none → s ≠ "" →
      list_messages (some db) cache none (some s) sender chat q limit page ic cb ca
        = (Except.error ("Invalid date format for before: " ++ s
            ++ ". Please use ISO-8601 format."), cache, [Event.connectMessageStore]))
    ∧ (∀ bridge m, send_message bridge "" m = ((false, "Recipient must be provided"), []))
    ∧ (∀ bridge m rj, send_reply bridge "" m "x" rj
        = ((false, "Recipient must be provided"), []))
    ∧ (∀ bridge r m rj, r ≠ "" → send_reply bridge r m "" rj
        = ((false, "reply_to_id must be provided"), []))
    ∧ (∀ bridge nm, mcp_watch_channel bridge "" nm
        = ((false, "JID must be provided"), [])) := by
  refine ⟨?_, ?_, fun bridge m => rfl, fun bridge m rj => rfl, ?_, fun bridge nm => rfl⟩
  · intro bnd sender chat q limit page ic cb ca s hp hs
    have hs2 : (s == "") = false := beq_eq_false_iff_ne.mpr hs
    simp [list_messages, parseBound, hs2, hp]
  · intro sender chat q limit page ic cb ca s hp hs
    have hs2 : (s == "") = false := beq_eq_false_iff_ne.mpr hs
    simp [list_messages, parseBound, hs2, hp]
  · intro bridge r m rj hr
    have hr2 : (r == "") = false := beq_eq_false_iff_ne.mpr hr
    simp [send_reply, hr2]

/-- **C6 (witness).** concrete runs of the amended statement: the bad-date
branch at "not-a-date" and the missing reply_to_id branch. -/
theorem c6_invalid_rejection_witness :
    list_messages (some dbMsgs) [] (some "not-a-date") none none none none 5 0 true 1 1
      = (Except.error ("Invalid date format for after: " ++ "not-a-date"
          ++ ". Please use ISO-8601 format."), [], [Event.connectMessageStore])
    ∧ send_reply (BridgeResult.exn "down") "123" "hi" "" "j"
        = ((false, "reply_to_id must be provided"), []) :=
  ⟨(c6_invalid_rejection dbMsgs []).1 none none none none 5 0 true 1 1 "not-a-date"
      (by decide) (by decide),
   (c6_invalid_rejection dbMsgs []).2.2.2.2.1 (BridgeResult.exn "down") "123" "hi" "j"
      (by decide)⟩

/-- **C6 (counterexample).** A store connection IS opened before the
invalid-date rejection: with an unparseable `after` value the recorded trace
contains the connect event, contradicting the claim that no store connection
is opened for an InvalidArgument condition. -/
theorem c6_counterexample :
    (list_messages (some dbMsgs) [] (some "bad") none none none none 5 0 true 1 1).1
      = Except.error ("Invalid date format for after: bad. Please use ISO-8601 format.")
    ∧ Event.connectMessageStore ∈
        (list_messages (some dbMsgs) [] (some "bad") none none none none 5 0 true 1 1).2.2 := by
  refine ⟨rfl, by decide⟩

/-! ### Claim C7: degradation policy -/

/-- **C7.** Store-read failures degrade without crashing: `list_messages`
returns the empty list, `list_chats` the empty list, `get_chat` and
`get_last_interaction` `None` - except `get_message_context`, which
re-raises; and every transport failure of the cited send operations
(bridge unreachable, non-200 status, malformed JSON of a 200 response) is
converted to a structured `(False, descriptive message)` pair; the embedded
operations are total functions, so no transport exception reaches the
caller. -/
theorem c7_error_policy (cache : Cache) :
    (∀ a b s c q lim p ic cb ca,
      (list_messages none cache a b s c q lim p ic cb ca).1
        = Except.ok LMResult.emptyList)
    ∧ (∀ q lim p ilm sb, (list_chats none cache q lim p ilm sb).1 = [])
    ∧ (∀ j ilm, (get_chat none cache j ilm).1 = none)
    ∧ (∀ j, (get_last_interaction none cache j).1 = none)
    ∧ (∀ mid b a, (get_message_context none mid b a).1
        = Except.error "Database error")
    ∧ (∀ r m em, r ≠ "" → (send_message (BridgeResult.exn em) r m).1
        = (false, "Request error: " ++ em))
    ∧ (∀ r m code text js, r ≠ "" → code ≠ 200 →
        (send_message (BridgeResult.conn ⟨code, text, js⟩) r m).1
          = (false, "Error: HTTP " ++ toString code ++ " - " ++ text))
    ∧ (∀ r m text, r ≠ "" →
        (send_message (BridgeResult.conn ⟨200, text, none⟩) r m).1
          = (false, "Error parsing response: " ++ text))
    ∧ (∀ r m rid rj em, r ≠ "" → rid ≠ "" →
        (send_reply (BridgeResult.exn em) r m rid rj).1
          = (false, "Request error: " ++ em)) := by
  refine ⟨fun _ _ _ _ _ _ _ _ _ _ => rfl, fun _ _ _ _ _ => rfl, fun _ _ => rfl,
    fun _ => rfl, fun _ _ _ => rfl, ?_, ?_, ?_, ?_⟩
  · intro r m em hr
    have hr2 : (r == "") = false := beq_eq_false_iff_ne.mpr hr
    simp [send_message, hr2]
  · intro r m code text js hr hcode
    have hr2 : (r == "") = false := beq_eq_false_iff_ne.mpr hr
    have hc2 : (code == 200) = false := beq_eq_false_iff_ne.mpr hcode
    simp [send_message, hr2, hc2]
  · intro r m text hr
    have hr2 : (r == "") = false := beq_eq_false_iff_ne.mpr hr
    simp [send_message, hr2]
  · intro r m rid rj em hr hrid
    have hr2 : (r == "") = false := beq_eq_false_iff_ne.mpr hr
    have hrid2 : (rid == "") = false := beq_eq_false_iff_ne.mpr hrid
    simp [send_reply, hr2, hrid2]

/-- **C7 (witness).** concrete transport failures of `send_message`
converted to structured failure pairs. -/
theorem c7_error_policy_witness :
    (send_message (BridgeResult.exn "boom") "123" "hi").1
      = (false, "Request error: " ++ "boom")
    ∧ (send_message (BridgeResult.conn ⟨500, "oops", none⟩) "123" "hi").1
        = (false, "Error: HTTP " ++ toString 500 ++ " - " ++ "oops")
    ∧ (send_message (BridgeResult.conn ⟨200, "nonsense", none⟩) "123" "hi").1
        = (false, "Error parsing response: " ++ "nonsense") :=
  ⟨(c7_error_policy []).2.2.2.2.2.1 "123" "hi" "boom" (by decide),
   (c7_error_policy []).2.2.2.2.2.2.1 "123" "hi" 500 "oops" none (by decide) (by decide),
   (c7_error_policy []).2.2.2.2.2.2.2.1 "123" "hi" "nonsense" (by decide)⟩

end Whatsapp
